import Mathlib

/-!
Verification development for a serverless HTTP backend that proxies
authentication, profile retrieval and a PDF-asset manifest to a hosted
provider.  Python strings are modelled as lists of Unicode code points,
fallible Python code as `Option`-returning functions, and the external
provider's behaviour as explicit parameters.
-/

namespace VercelSpec

/-- Python strings modelled as lists of code points. -/
abbrev PyStr := List Nat

/-- ASCII lowercasing of one code point, as Python `str.lower` acts on the
ASCII range: `A`..`Z` map to `a`..`z`, everything else is unchanged. -/
def pyLowerChar (c : Nat) : Nat := if 65 ≤ c ∧ c ≤ 90 then c + 32 else c

/-- Python `str.lower` over the code-point list (ASCII fragment). -/
def pyLowerStr (s : PyStr) : PyStr := s.map pyLowerChar

/-- Code points stripped by Python `str.strip`: tab, LF, VT, FF, CR, space. -/
def pySpace (c : Nat) : Bool :=
  c == 9 || c == 10 || c == 11 || c == 12 || c == 13 || c == 32

/-- Python `str.lstrip()`. -/
def pyLStrip (s : PyStr) : PyStr := s.dropWhile pySpace

/-- Python `str.rstrip()`. -/
def pyRStrip (s : PyStr) : PyStr := (s.reverse.dropWhile pySpace).reverse

/-- Python `str.strip()`. -/
def pyStrip (s : PyStr) : PyStr := pyRStrip (pyLStrip s)

/-- Python `a or b` on strings: the left operand unless it is empty (falsy). -/
def pyOr (a b : PyStr) : PyStr := if a = [] then b else a

/-- `normalize_email` from `api/utils/common.py`:
`(email or "").strip().lower()`.  The `try`/`except` around it cannot fire
for string input, so the embedding is the direct composition. -/
def normalize_email (email : PyStr) : PyStr := pyLowerStr (pyStrip (pyOr email []))

theorem pyOr_nil (s : PyStr) : pyOr s [] = s := by
  unfold pyOr; split <;> simp_all

theorem pyLowerChar_idem (c : Nat) : pyLowerChar (pyLowerChar c) = pyLowerChar c := by
  by_cases h : 65 ≤ c ∧ c ≤ 90
  · have h1 : pyLowerChar c = c + 32 := by unfold pyLowerChar; exact if_pos h
    have h2 : pyLowerChar (c + 32) = c + 32 := by
      unfold pyLowerChar; exact if_neg (by omega)
    rw [h1, h2]
  · have h1 : pyLowerChar c = c := by unfold pyLowerChar; exact if_neg h
    rw [h1, h1]

theorem pyLowerStr_idem (s : PyStr) : pyLowerStr (pyLowerStr s) = pyLowerStr s := by
  simp only [pyLowerStr, List.map_map]
  exact List.map_congr_left (fun c _ => pyLowerChar_idem c)

theorem pySpace_iff (c : Nat) :
    pySpace c = true ↔ (c = 9 ∨ c = 10 ∨ c = 11 ∨ c = 12 ∨ c = 13 ∨ c = 32) := by
  simp only [pySpace, Bool.or_eq_true, beq_iff_eq]
  tauto

theorem pySpace_lower (c : Nat) : pySpace (pyLowerChar c) = pySpace c := by
  rw [Bool.eq_iff_iff, pySpace_iff, pySpace_iff]
  unfold pyLowerChar
  split <;> omega

theorem dropWhile_map_lower (s : PyStr) :
    (pyLowerStr s).dropWhile pySpace = pyLowerStr (s.dropWhile pySpace) := by
  induction s with
  | nil => rfl
  | cons c t ih =>
    simp only [pyLowerStr, List.map_cons, List.dropWhile_cons, pySpace_lower]
    by_cases h : pySpace c
    · simpa [h] using ih
    · simp [h, pyLowerStr]

theorem pyLStrip_lower (s : PyStr) :
    pyLStrip (pyLowerStr s) = pyLowerStr (pyLStrip s) := dropWhile_map_lower s

theorem pyRStrip_lower (s : PyStr) :
    pyRStrip (pyLowerStr s) = pyLowerStr (pyRStrip s) := by
  simp only [pyRStrip, pyLowerStr]
  rw [← List.map_reverse, ← pyLowerStr, dropWhile_map_lower, pyLowerStr, List.map_reverse]

theorem pyStrip_lower (s : PyStr) :
    pyStrip (pyLowerStr s) = pyLowerStr (pyStrip s) := by
  simp only [pyStrip, pyLStrip_lower, pyRStrip_lower]

theorem dropWhile_self (p : Nat → Bool) (l : List Nat) :
    (l.dropWhile p).dropWhile p = l.dropWhile p := by
  induction l with
  | nil => rfl
  | cons c t ih =>
    by_cases h : p c
    · simp [List.dropWhile_cons, h, ih]
    · simp [List.dropWhile_cons, h]

theorem length_dropWhile_le (p : Nat → Bool) (l : List Nat) :
    (l.dropWhile p).length ≤ l.length := by
  induction l with
  | nil => simp
  | cons c t ih =>
    by_cases h : p c
    · simp only [List.dropWhile_cons, h, if_true]
      simp only [List.length_cons]
      omega
    · simp [List.dropWhile_cons, h]

theorem dropWhile_fix_append (p : Nat → Bool) (m r : List Nat)
    (h : (m ++ r).dropWhile p = m ++ r) : m.dropWhile p = m := by
  cases m with
  | nil => rfl
  | cons c t =>
    by_cases hc : p c
    · exfalso
      simp only [List.cons_append, List.dropWhile_cons, hc, if_true] at h
      have hlen := congrArg List.length h
      have hle := length_dropWhile_le p (t ++ r)
      have happ : (t ++ r).length = t.length + r.length := List.length_append t r
      simp at hlen
      omega
    · simp [List.dropWhile_cons, hc]

theorem pyRStrip_decomp (l : List Nat) :
    ∃ r, l = pyRStrip l ++ r := by
  refine ⟨(l.reverse.takeWhile pySpace).reverse, ?_⟩
  rw [pyRStrip, ← List.reverse_append, List.takeWhile_append_dropWhile, List.reverse_reverse]

theorem pyLStrip_pyRStrip_of_fix (l : List Nat) (h : pyLStrip l = l) :
    pyLStrip (pyRStrip l) = pyRStrip l := by
  obtain ⟨r, hr⟩ := pyRStrip_decomp l
  apply dropWhile_fix_append pySpace (pyRStrip l) r
  rw [← hr]
  exact h

theorem pyRStrip_idem (l : List Nat) : pyRStrip (pyRStrip l) = pyRStrip l := by
  simp only [pyRStrip, List.reverse_reverse, dropWhile_self]

theorem pyStrip_idem (s : PyStr) : pyStrip (pyStrip s) = pyStrip s := by
  simp only [pyStrip]
  rw [pyLStrip_pyRStrip_of_fix (pyLStrip s) (dropWhile_self pySpace s),
    pyRStrip_idem]

theorem normalize_email_eq (s : PyStr) :
    normalize_email s = pyLowerStr (pyStrip s) := by
  simp [normalize_email, pyOr_nil]

theorem dropWhile_allspace_append (ws l : List Nat) (h : ∀ c ∈ ws, pySpace c = true) :
    (ws ++ l).dropWhile pySpace = l.dropWhile pySpace := by
  induction ws with
  | nil => rfl
  | cons c t ih =>
    simp only [List.cons_append, List.dropWhile_cons, h c (by simp), if_true]
    exact ih (fun d hd => h d (by simp [hd]))

theorem dropWhile_allspace (ws : List Nat) (h : ∀ c ∈ ws, pySpace c = true) :
    ws.dropWhile pySpace = [] := by
  have := dropWhile_allspace_append ws [] h
  simpa using this

theorem dropWhile_append_split (p : Nat → Bool) (a b : List Nat) :
    (a ++ b).dropWhile p =
      if a.dropWhile p = [] then b.dropWhile p else a.dropWhile p ++ b := by
  induction a with
  | nil => simp
  | cons c t ih =>
    by_cases h : p c
    · simpa [List.dropWhile_cons, h] using ih
    · simp [List.dropWhile_cons, h]

theorem pyRStrip_allspace_append (a ws : List Nat) (h : ∀ c ∈ ws, pySpace c = true) :
    pyRStrip (a ++ ws) = pyRStrip a := by
  simp only [pyRStrip, List.reverse_append]
  rw [dropWhile_allspace_append ws.reverse a.reverse
    (fun c hc => h c (List.mem_reverse.mp hc))]

theorem pyStrip_pad (ws1 core ws2 : List Nat)
    (h1 : ∀ c ∈ ws1, pySpace c = true) (h2 : ∀ c ∈ ws2, pySpace c = true) :
    pyStrip (ws1 ++ core ++ ws2) = pyStrip core := by
  simp only [pyStrip, pyLStrip, List.append_assoc]
  rw [dropWhile_allspace_append ws1 (core ++ ws2) h1]
  rw [dropWhile_append_split pySpace core ws2]
  by_cases hc : core.dropWhile pySpace = []
  · simp only [hc, if_true]
    rw [dropWhile_allspace ws2 h2]
  · simp only [hc, if_false]
    exact pyRStrip_allspace_append _ ws2 h2

/-- Claim C9: `normalize_email` is idempotent, and two inputs differing only in
letter case (same image under lowercasing) or only in leading and trailing
whitespace normalize to the same value. -/
theorem C9_normalize_email_idempotent :
    (∀ s : PyStr, normalize_email (normalize_email s) = normalize_email s) ∧
    (∀ x y : PyStr, pyLowerStr x = pyLowerStr y →
      normalize_email x = normalize_email y) ∧
    (∀ ws1 ws2 ws3 ws4 core : List Nat,
      (∀ c ∈ ws1, pySpace c = true) → (∀ c ∈ ws2, pySpace c = true) →
      (∀ c ∈ ws3, pySpace c = true) → (∀ c ∈ ws4, pySpace c = true) →
      normalize_email (ws1 ++ core ++ ws2) = normalize_email (ws3 ++ core ++ ws4)) := by
  refine ⟨?_, ?_, ?_⟩
  · intro s
    simp only [normalize_email_eq]
    rw [pyStrip_lower (pyStrip s), pyStrip_idem s]
    exact pyLowerStr_idem _
  · intro x y h
    simp only [normalize_email_eq]
    rw [← pyStrip_lower x, ← pyStrip_lower y, h]
  · intro ws1 ws2 ws3 ws4 core h1 h2 h3 h4
    simp only [normalize_email_eq]
    rw [pyStrip_pad ws1 core ws2 h1 h2, pyStrip_pad ws3 core ws4 h3 h4]

/-- Witness for C9 at concrete inputs: idempotence at `" Ab"`, case
invariance between `"AB"` and `"ab"`, and whitespace invariance between
`" ab "` and `"ab "`. -/
theorem C9_normalize_email_idempotent_witness :
    normalize_email (normalize_email [32, 65, 98]) = normalize_email [32, 65, 98] ∧
    normalize_email [65, 66] = normalize_email [97, 98] ∧
    normalize_email ([32] ++ [97, 98] ++ []) = normalize_email ([] ++ [97, 98] ++ [32]) :=
  ⟨C9_normalize_email_idempotent.1 [32, 65, 98],
   C9_normalize_email_idempotent.2.1 [65, 66] [97, 98] (by decide),
   C9_normalize_email_idempotent.2.2 [32] [] [] [32] [97, 98]
     (by decide) (by decide) (by decide) (by decide)⟩

/-- Limit normalization in `GET /pdfs` (`api/routes/user.py`, `list_pdfs`):
`limit = max(1, min(int(limit or 10), 100))` with `except Exception: limit = 10`.
The input is the parse result of the query value: `none` models an
unparsable value (the `int(...)` conversion raising), `some l` a parsed
integer; `l = 0` is falsy in Python so `limit or 10` replaces it with 10. -/
def clampPdfLimit (limit : Option Int) : Int :=
  match limit with
  | none => 10
  | some l => max 1 (min (if l = 0 then 10 else l) 100)

/-- Counterexample to claim C10 as stated: a requested limit of `0` is
non-positive, yet the value passed on is the default 10, not 1. -/
theorem C10_counterexample_zero_limit : ¬ (clampPdfLimit (some 0) = 1) := by decide

/-- Claim C10 (amended): the limit passed to the manifest fetch always lies
in 1..100; a limit above 100 is reduced to 100, a negative limit is raised
to 1, a limit of 0 (falsy in Python) falls back to the default 10, and an
unparsable limit becomes the default 10. -/
theorem C10_pdfs_limit_clamped :
    (∀ q : Option Int, 1 ≤ clampPdfLimit q ∧ clampPdfLimit q ≤ 100) ∧
    (∀ l : Int, 100 < l → clampPdfLimit (some l) = 100) ∧
    (∀ l : Int, l < 0 → clampPdfLimit (some l) = 1) ∧
    clampPdfLimit (some 0) = 10 ∧
    clampPdfLimit none = 10 := by
  refine ⟨?_, ?_, ?_, by decide, rfl⟩
  · intro q
    match q with
    | none => exact ⟨by decide, by decide⟩
    | some l =>
      simp only [clampPdfLimit]
      constructor
      · exact le_max_left 1 _
      · by_cases h : l = 0
        · simp [h]
        · simp only [h, if_false]
          omega
  · intro l h
    simp only [clampPdfLimit]
    have h0 : ¬ (l = 0) := by omega
    simp only [h0, if_false]
    omega
  · intro l h
    simp only [clampPdfLimit]
    have h0 : ¬ (l = 0) := by omega
    simp only [h0, if_false]
    omega

/-- Witness for C10 at concrete inputs 150, -3 and an unparsable value. -/
theorem C10_pdfs_limit_clamped_witness :
    clampPdfLimit (some 150) = 100 ∧ clampPdfLimit (some (-3)) = 1 ∧
    1 ≤ clampPdfLimit (some 7) ∧ clampPdfLimit (some 7) ≤ 100 :=
  ⟨C10_pdfs_limit_clamped.2.1 150 (by decide),
   C10_pdfs_limit_clamped.2.2.1 (-3) (by decide),
   (C10_pdfs_limit_clamped.1 (some 7)).1,
   (C10_pdfs_limit_clamped.1 (some 7)).2⟩

/-- One row of the `pdf_assets` manifest table as selected by
`fetch_pdfs_from_manifest` in `api/utils/user_content.py`
(`select id,module,lesson,path,is_default,score_min,score_max,active`). -/
structure PdfRow where
  id : Nat
  module : PyStr
  lesson : Option PyStr
  path : PyStr
  is_default : Bool
  score_min : Option Int
  score_max : Option Int
  active : Bool
deriving DecidableEq

/-- Row predicate of the manifest query built in `fetch_pdfs_from_manifest`:
`.eq("module", module).eq("active", True)`, the optional
`.eq("lesson", lesson_filter)` when the stripped lesson is non-empty, and for
a numeric score the two PostgREST disjunctions
`or_(score_min.is.null,score_min.lte.score)` and
`or_(score_max.is.null,score_max.gte.score)`;
with no score, `.eq("is_default", True)`.  Each filter is conjoined. -/
def manifestRowMatches (module : PyStr) (lesson : Option PyStr)
    (score : Option Int) (r : PdfRow) : Bool :=
  let lessonFilter := pyStrip (lesson.getD [])
  (r.module = module : Bool) &&
  r.active &&
  (if lessonFilter = [] then true
   else match r.lesson with
        | some l => (l = lessonFilter : Bool)
        | none => false) &&
  (match score with
   | none => r.is_default
   | some s =>
     (match r.score_min with
      | none => true
      | some v => (v ≤ s : Bool)) &&
     (match r.score_max with
      | none => true
      | some v => (s ≤ v : Bool)))

/-- Claim C4: with a numeric score, a row passing the module/lesson filters
is selected iff (score_min is null or score_min ≤ score) and (score_max is
null or score ≤ score_max); a row with score_min null and score_max 50
matches every score in 0..50 and not 51; a row with both bounds null matches
every score; and only active rows are ever selected. -/
theorem C4_manifest_score_filter :
    (∀ (m : PyStr) (lf : Option PyStr) (s : Int) (r : PdfRow),
      r.module = m → r.active = true → pyStrip (lf.getD []) = [] →
      (manifestRowMatches m lf (some s) r = true ↔
        ((r.score_min = none ∨ ∃ v, r.score_min = some v ∧ v ≤ s) ∧
         (r.score_max = none ∨ ∃ v, r.score_max = some v ∧ s ≤ v)))) ∧
    (∀ (m : PyStr) (r : PdfRow), r.module = m → r.active = true →
      r.score_min = none → r.score_max = some 50 →
      (∀ s : Int, 0 ≤ s → s ≤ 50 → manifestRowMatches m none (some s) r = true) ∧
      manifestRowMatches m none (some 51) r = false) ∧
    (∀ (m : PyStr) (r : PdfRow), r.module = m → r.active = true →
      r.score_min = none → r.score_max = none →
      ∀ s : Int, manifestRowMatches m none (some s) r = true) ∧
    (∀ (m : PyStr) (lf : Option PyStr) (sc : Option Int) (r : PdfRow),
      manifestRowMatches m lf sc r = true → r.active = true) := by
  refine ⟨?_, ?_, ?_, ?_⟩
  · intro m lf s r hm ha hl
    match hmin : r.score_min, hmax : r.score_max with
    | none, none => simp [manifestRowMatches, hm, ha, hl, hmin, hmax]
    | none, some w => simp [manifestRowMatches, hm, ha, hl, hmin, hmax]
    | some v, none => simp [manifestRowMatches, hm, ha, hl, hmin, hmax]
    | some v, some w => simp [manifestRowMatches, hm, ha, hl, hmin, hmax]
  · intro m r hm ha hmin hmax
    constructor
    · intro s _ hs
      simp [manifestRowMatches, hm, ha, hmin, hmax, pyStrip, pyLStrip, pyRStrip, hs]
    · simp [manifestRowMatches, hm, ha, hmin, hmax, pyStrip, pyLStrip, pyRStrip]
  · intro m r hm ha hmin hmax s
    simp [manifestRowMatches, hm, ha, hmin, hmax, pyStrip, pyLStrip, pyRStrip]
  · intro m lf sc r h
    simp only [manifestRowMatches, Bool.and_eq_true] at h
    exact h.1.1.2

/-- Witness for C4: a concrete active row with module `"p"`, score_min null,
score_max 50 matches score 0 and 50 and rejects 51. -/
theorem C4_manifest_score_filter_witness :
    manifestRowMatches [112] none (some 0)
      ⟨1, [112], none, [97], false, none, some 50, true⟩ = true ∧
    manifestRowMatches [112] none (some 50)
      ⟨1, [112], none, [97], false, none, some 50, true⟩ = true ∧
    manifestRowMatches [112] none (some 51)
      ⟨1, [112], none, [97], false, none, some 50, true⟩ = false :=
  ⟨((C4_manifest_score_filter.2.1 [112] ⟨1, [112], none, [97], false, none, some 50, true⟩
      rfl rfl rfl rfl).1 0 (by decide) (by decide)),
   ((C4_manifest_score_filter.2.1 [112] ⟨1, [112], none, [97], false, none, some 50, true⟩
      rfl rfl rfl rfl).1 50 (by decide) (by decide)),
   ((C4_manifest_score_filter.2.1 [112] ⟨1, [112], none, [97], false, none, some 50, true⟩
      rfl rfl rfl rfl).2)⟩

/-- `create_signed_storage_url` from `api/utils/core_supabase.py` (lines
130-133).  Its entire body is the guard
`if not service_key or create_client is None: return None`; the code that
would call the storage SDK sits unreachably after a `return None` inside
`create_signed_upload_url`, so on the guard's else branch the function falls
off the end and Python returns `None` implicitly. -/
def create_signed_storage_url (service_key : PyStr) (clientInstalled : Bool)
    (bucket path : PyStr) (expires_in : Nat) : Option PyStr :=
  if service_key = [] ∨ clientInstalled = false then none
  else none

/-- An entry of the list built by `fetch_pdfs_from_manifest` in
`api/utils/user_content.py`. -/
structure PdfOutItem where
  id : Nat
  module : PyStr
  lesson : Option PyStr
  path : PyStr
  signed_url : PyStr
  is_default : Bool
  score_min : Option Int
  score_max : Option Int
deriving DecidableEq

/-- `fetch_pdfs_from_manifest` from `api/utils/user_content.py`.  The table
contents are passed in as `rows`; the manifest query is embedded as the row
predicate `manifestRowMatches` plus the limit cap (the `order` clauses only
affect ordering and are not modelled).  Each selected row is mapped through
`create_signed_storage_url`; rows whose URL is `None` are skipped. -/
def fetch_pdfs_from_manifest (clientInstalled : Bool) (service_key : PyStr)
    (rows : List PdfRow) (module : PyStr) (lesson : Option PyStr)
    (score : Option Int) (limit : Int) (expires_in : Nat) : List PdfOutItem :=
  let module := pyStrip module
  if module = [] then []
  else if service_key = [] then []
  else
    let items := rows.filter (manifestRowMatches module lesson score)
    let items := if 0 < limit then items.take limit.toNat else items
    items.filterMap (fun it =>
      let mod := pyOr it.module module
      match create_signed_storage_url service_key clientInstalled mod it.path
          expires_in with
      | none => none
      | some url => some ⟨it.id, mod, it.lesson, it.path, url,
          it.is_default, it.score_min, it.score_max⟩)

/-- The guard-only body of `create_signed_storage_url` returns `None` on
every input, service key or not. -/
theorem create_signed_storage_url_none (service_key : PyStr)
    (clientInstalled : Bool) (bucket path : PyStr) (expires_in : Nat) :
    create_signed_storage_url service_key clientInstalled bucket path
      expires_in = none := by
  unfold create_signed_storage_url
  split <;> rfl

/-- Claim C2 fails on the code: since `create_signed_storage_url` always
returns `None`, `fetch_pdfs_from_manifest` skips every selected row and
returns the empty list on all inputs — in particular it is empty even when
the manifest query result is non-empty and the service key is configured. -/
theorem C2_fetch_pdfs_always_empty (clientInstalled : Bool) (service_key : PyStr)
    (rows : List PdfRow) (module : PyStr) (lesson : Option PyStr)
    (score : Option Int) (limit : Int) (expires_in : Nat) :
    fetch_pdfs_from_manifest clientInstalled service_key rows module lesson
      score limit expires_in = [] := by
  unfold fetch_pdfs_from_manifest
  by_cases h1 : pyStrip module = []
  · simp [h1]
  · by_cases h2 : service_key = []
    · simp [h1, h2]
    · simp only [h1, h2, if_false]
      apply List.filterMap_eq_nil_iff.mpr
      intro it _
      simp [create_signed_storage_url_none]

/-- Evaluation of the code at the failing input: service key `"k"`, client
installed, one active matching row with module `"m"` and path `"p"` — the
query selects the row, yet the result is empty because the signed URL is
`None`. -/
theorem C2_failing_input_evaluation :
    manifestRowMatches [109] none none
      ⟨1, [109], none, [112], true, none, none, true⟩ = true ∧
    fetch_pdfs_from_manifest true [107]
      [⟨1, [109], none, [112], true, none, none, true⟩] [109] none none 10 1800
      = [] := by
  constructor
  · decide
  · decide

/-- Base64 encoding of a byte list, parameterized by the sextet-to-character
alphabet; the output carries no padding (the code strips `=` or the callers
re-add it before decoding). -/
def b64Encode (alpha : Nat → Nat) : List Nat → List Nat
  | a :: b :: c :: rest =>
      alpha (a / 4) :: alpha ((a % 4) * 16 + b / 16) ::
      alpha ((b % 16) * 4 + c / 64) :: alpha (c % 64) :: b64Encode alpha rest
  | [a] => [alpha (a / 4), alpha ((a % 4) * 16)]
  | [a, b] => [alpha (a / 4), alpha ((a % 4) * 16 + b / 16), alpha ((b % 16) * 4)]
  | [] => []

/-- Base64 decoding of an unpadded character list, parameterized by the
character-to-sextet inverse map. -/
def b64Decode (beta : Nat → Nat) : List Nat → List Nat
  | w :: x :: y :: z :: rest =>
      ((beta w) * 4 + (beta x) / 16) ::
      (((beta x) % 16) * 16 + (beta y) / 4) ::
      (((beta y) % 4) * 64 + beta z) :: b64Decode beta rest
  | [w, x] => [(beta w) * 4 + (beta x) / 16]
  | [w, x, y] => [(beta w) * 4 + (beta x) / 16, ((beta x) % 16) * 16 + (beta y) / 4]
  | _ => []

/-- Base64 decode as the Python library functions behave for the callers in
this codebase: invalid characters or an impossible length raise, which every
caller catches, so the embedding returns `none` there. -/
def b64DecodeChecked (valid : Nat → Bool) (beta : Nat → Nat)
    (l : List Nat) : Option (List Nat) :=
  if l.all valid && l.length % 4 != 1 then some (b64Decode beta l) else none

/-- URL-safe base64 alphabet (`base64.urlsafe_b64encode`). -/
def b64AlphaUrl (n : Nat) : Nat :=
  if n < 26 then 65 + n
  else if n < 52 then 97 + (n - 26)
  else if n < 62 then 48 + (n - 52)
  else if n = 62 then 45 else 95

/-- Inverse of the URL-safe alphabet. -/
def b64BetaUrl (c : Nat) : Nat :=
  if 65 ≤ c ∧ c ≤ 90 then c - 65
  else if 97 ≤ c ∧ c ≤ 122 then 26 + (c - 97)
  else if 48 ≤ c ∧ c ≤ 57 then 52 + (c - 48)
  else if c = 45 then 62
  else if c = 95 then 63 else 0

/-- Membership in the URL-safe alphabet. -/
def b64ValidUrl (c : Nat) : Bool :=
  (65 ≤ c && c ≤ 90) || (97 ≤ c && c ≤ 122) || (48 ≤ c && c ≤ 57) ||
    c == 45 || c == 95

/-- Standard base64 alphabet (`base64.b64encode`). -/
def b64AlphaStd (n : Nat) : Nat :=
  if n < 26 then 65 + n
  else if n < 52 then 97 + (n - 26)
  else if n < 62 then 48 + (n - 52)
  else if n = 62 then 43 else 47

/-- Inverse of the standard alphabet. -/
def b64BetaStd (c : Nat) : Nat :=
  if 65 ≤ c ∧ c ≤ 90 then c - 65
  else if 97 ≤ c ∧ c ≤ 122 then 26 + (c - 97)
  else if 48 ≤ c ∧ c ≤ 57 then 52 + (c - 48)
  else if c = 43 then 62
  else if c = 47 then 63 else 0

/-- Membership in the standard alphabet. -/
def b64ValidStd (c : Nat) : Bool :=
  (65 ≤ c && c ≤ 90) || (97 ≤ c && c ≤ 122) || (48 ≤ c && c ≤ 57) ||
    c == 43 || c == 47

/-- `_b64url` from `api/utils/admin_auth.py`. -/
def b64urlEncode (bytes : List Nat) : List Nat := b64Encode b64AlphaUrl bytes

/-- `_b64url_decode` from `api/utils/admin_auth.py` (re-pads, then decodes). -/
def b64urlDecode (s : List Nat) : Option (List Nat) :=
  b64DecodeChecked b64ValidUrl b64BetaUrl s

/-- Standard `base64.b64encode` used by the crypto helpers. -/
def b64stdEncode (bytes : List Nat) : List Nat := b64Encode b64AlphaStd bytes

/-- Standard `base64.b64decode` used by the crypto helpers. -/
def b64stdDecode (s : List Nat) : Option (List Nat) :=
  b64DecodeChecked b64ValidStd b64BetaStd s

theorem b64BetaUrl_alpha : ∀ n, n < 64 → b64BetaUrl (b64AlphaUrl n) = n := by decide

theorem b64ValidUrl_alpha : ∀ n, n < 64 → b64ValidUrl (b64AlphaUrl n) = true := by decide

theorem b64AlphaUrl_ne_dot : ∀ n, n < 64 → b64AlphaUrl n ≠ 46 := by decide

theorem b64BetaStd_alpha : ∀ n, n < 64 → b64BetaStd (b64AlphaStd n) = n := by decide

theorem b64ValidStd_alpha : ∀ n, n < 64 → b64ValidStd (b64AlphaStd n) = true := by decide

theorem b64Decode_b64Encode (alpha beta : Nat → Nat)
    (hba : ∀ n, n < 64 → beta (alpha n) = n) :
    ∀ l : List Nat, (∀ b ∈ l, b < 256) →
      b64Decode beta (b64Encode alpha l) = l
  | [], _ => rfl
  | [a], h => by
    have ha : a < 256 := h a (by simp)
    simp only [b64Encode, b64Decode]
    rw [hba (a / 4) (by omega), hba ((a % 4) * 16) (by omega)]
    simp only [List.cons.injEq, and_true]
    omega
  | [a, b], h => by
    have ha : a < 256 := h a (by simp)
    have hb : b < 256 := h b (by simp)
    simp only [b64Encode, b64Decode]
    rw [hba (a / 4) (by omega), hba ((a % 4) * 16 + b / 16) (by omega),
      hba ((b % 16) * 4) (by omega)]
    simp only [List.cons.injEq, and_true]
    exact ⟨by omega, by omega⟩
  | a :: b :: c :: rest, h => by
    have ha : a < 256 := h a (by simp)
    have hb : b < 256 := h b (by simp)
    have hc : c < 256 := h c (by simp)
    have ih := b64Decode_b64Encode alpha beta hba rest
      (fun x hx => h x (by simp [hx]))
    simp only [b64Encode, b64Decode]
    rw [hba (a / 4) (by omega), hba ((a % 4) * 16 + b / 16) (by omega),
      hba ((b % 16) * 4 + c / 64) (by omega), hba (c % 64) (by omega)]
    simp only [List.cons.injEq]
    exact ⟨by omega, by omega, by omega, ih⟩

theorem b64Encode_length_mod (alpha : Nat → Nat) :
    ∀ l : List Nat, (b64Encode alpha l).length % 4 ≠ 1
  | [] => by simp [b64Encode]
  | [a] => by simp [b64Encode]
  | [a, b] => by simp [b64Encode]
  | a :: b :: c :: rest => by
    have ih := b64Encode_length_mod alpha rest
    simp only [b64Encode, List.length_cons]
    omega

theorem b64Encode_valid (alpha : Nat → Nat) (valid : Nat → Bool)
    (hv : ∀ n, n < 64 → valid (alpha n) = true) :
    ∀ l : List Nat, (∀ b ∈ l, b < 256) → (b64Encode alpha l).all valid = true
  | [], _ => rfl
  | [a], h => by
    have ha : a < 256 := h a (by simp)
    simp only [b64Encode, List.all_cons, List.all_nil, Bool.and_true,
      Bool.and_eq_true]
    exact ⟨hv _ (by omega), hv _ (by omega)⟩
  | [a, b], h => by
    have ha : a < 256 := h a (by simp)
    have hb : b < 256 := h b (by simp)
    simp only [b64Encode, List.all_cons, List.all_nil, Bool.and_true,
      Bool.and_eq_true]
    exact ⟨hv _ (by omega), hv _ (by omega), hv _ (by omega)⟩
  | a :: b :: c :: rest, h => by
    have ha : a < 256 := h a (by simp)
    have hb : b < 256 := h b (by simp)
    have hc : c < 256 := h c (by simp)
    have ih := b64Encode_valid alpha valid hv rest (fun x hx => h x (by simp [hx]))
    simp only [b64Encode, List.all_cons, Bool.and_eq_true]
    exact ⟨hv _ (by omega), hv _ (by omega), hv _ (by omega), hv _ (by omega), ih⟩

theorem b64Encode_ne_nil (alpha : Nat → Nat) :
    ∀ l : List Nat, l ≠ [] → b64Encode alpha l ≠ []
  | [], h => absurd rfl h
  | [a], _ => by simp [b64Encode]
  | [a, b], _ => by simp [b64Encode]
  | a :: b :: c :: rest, _ => by simp [b64Encode]

theorem b64DecodeChecked_b64Encode (alpha beta : Nat → Nat) (valid : Nat → Bool)
    (hba : ∀ n, n < 64 → beta (alpha n) = n)
    (hv : ∀ n, n < 64 → valid (alpha n) = true)
    (l : List Nat) (h : ∀ b ∈ l, b < 256) :
    b64DecodeChecked valid beta (b64Encode alpha l) = some l := by
  have h1 := b64Encode_valid alpha valid hv l h
  have h2 := b64Encode_length_mod alpha l
  unfold b64DecodeChecked
  rw [if_pos (by simp [h1, h2])]
  rw [b64Decode_b64Encode alpha beta hba l h]

theorem b64urlDecode_b64urlEncode (l : List Nat) (h : ∀ b ∈ l, b < 256) :
    b64urlDecode (b64urlEncode l) = some l :=
  b64DecodeChecked_b64Encode b64AlphaUrl b64BetaUrl b64ValidUrl
    b64BetaUrl_alpha b64ValidUrl_alpha l h

theorem b64stdDecode_b64stdEncode (l : List Nat) (h : ∀ b ∈ l, b < 256) :
    b64stdDecode (b64stdEncode l) = some l :=
  b64DecodeChecked_b64Encode b64AlphaStd b64BetaStd b64ValidStd
    b64BetaStd_alpha b64ValidStd_alpha l h

theorem b64urlEncode_ne_dot (l : List Nat) (h : ∀ b ∈ l, b < 256) :
    ∀ c ∈ b64urlEncode l, c ≠ 46 := by
  have hall := b64Encode_valid b64AlphaUrl (fun c => c != 46)
    (fun n hn => by
      simp only [bne_iff_ne, ne_eq, decide_eq_true_eq]
      exact b64AlphaUrl_ne_dot n hn) l h
  intro c hc
  have := List.all_eq_true.mp hall c hc
  simpa using this

/-- Splitting a character list at the first occurrence of `stop`, as Python
`token.split(stop, 1)` behaves for the two-part unpacking in the code:
`none` models the `ValueError` when `stop` does not occur. -/
def scanUntil (stop : Nat) : List Nat → Option (List Nat × List Nat)
  | [] => none
  | c :: rest =>
    if c = stop then some ([], rest)
    else match scanUntil stop rest with
         | some (pre, post) => some (c :: pre, post)
         | none => none

theorem scanUntil_append (stop : Nat) (pre post : List Nat)
    (h : ∀ c ∈ pre, c ≠ stop) :
    scanUntil stop (pre ++ stop :: post) = some (pre, post) := by
  induction pre with
  | nil => simp [scanUntil]
  | cons c t ih =>
    have hc : c ≠ stop := h c (by simp)
    simp only [List.cons_append, scanUntil, hc, if_false, List.append_eq]
    rw [ih (fun d hd => h d (by simp [hd]))]

/-- Fuel-driven decimal digit expansion; the fuel dominates the digit count
so the recursion is structural and computable by the kernel. -/
def natDecimalGo (fuel : Nat) (n : Nat) : List Nat :=
  match fuel with
  | 0 => []
  | fuel + 1 =>
    if n < 10 then [48 + n] else natDecimalGo fuel (n / 10) ++ [48 + n % 10]

/-- Decimal digit expansion of a natural number, as `json.dumps` renders an
int. -/
def natDecimal (n : Nat) : List Nat := natDecimalGo (n + 1) n

theorem natDecimalGo_digits :
    ∀ (fuel n : Nat), n < fuel → ∀ d ∈ natDecimalGo fuel n, 48 ≤ d ∧ d ≤ 57
  | 0, n, h => by omega
  | fuel + 1, n, _ => by
    by_cases h10 : n < 10
    · simp only [natDecimalGo, if_pos h10, List.mem_singleton]
      intro d hd
      omega
    · have ih := natDecimalGo_digits fuel (n / 10) (by omega)
      simp only [natDecimalGo, if_neg h10]
      intro d hd
      rw [List.mem_append] at hd
      rcases hd with hd | hd
      · exact ih d hd
      · simp at hd
        omega

theorem natDecimalGo_val :
    ∀ (fuel n : Nat), n < fuel →
      (natDecimalGo fuel n).foldl (fun a d => a * 10 + (d - 48)) 0 = n
  | 0, n, h => by omega
  | fuel + 1, n, _ => by
    by_cases h10 : n < 10
    · simp only [natDecimalGo, if_pos h10, List.foldl_cons, List.foldl_nil]
      omega
    · have ih := natDecimalGo_val fuel (n / 10) (by omega)
      simp only [natDecimalGo, if_neg h10, List.foldl_append, ih,
        List.foldl_cons, List.foldl_nil]
      omega

theorem natDecimalGo_ne_nil (fuel n : Nat) (h : n < fuel) :
    natDecimalGo fuel n ≠ [] := by
  match fuel with
  | 0 => omega
  | fuel + 1 =>
    by_cases h10 : n < 10
    · simp [natDecimalGo, if_pos h10]
    · simp [natDecimalGo, if_neg h10]

theorem natDecimal_digits (n : Nat) : ∀ d ∈ natDecimal n, 48 ≤ d ∧ d ≤ 57 :=
  natDecimalGo_digits (n + 1) n (by omega)

theorem natDecimal_val (n : Nat) :
    (natDecimal n).foldl (fun a d => a * 10 + (d - 48)) 0 = n :=
  natDecimalGo_val (n + 1) n (by omega)

theorem natDecimal_ne_nil (n : Nat) : natDecimal n ≠ [] :=
  natDecimalGo_ne_nil (n + 1) n (by omega)

/-- Greedy digit munching with an accumulator, the core of parsing an int
out of a JSON document. -/
def parseDigitsAux : List Nat → Nat → Nat × List Nat
  | c :: rest, acc =>
    if 48 ≤ c ∧ c ≤ 57 then parseDigitsAux rest (acc * 10 + (c - 48))
    else (acc, c :: rest)
  | [], acc => (acc, [])

theorem parseDigitsAux_append (ds : List Nat) (h : ∀ d ∈ ds, 48 ≤ d ∧ d ≤ 57) :
    ∀ (rest : List Nat) (acc : Nat),
      parseDigitsAux (ds ++ rest) acc =
        parseDigitsAux rest (ds.foldl (fun a d => a * 10 + (d - 48)) acc) := by
  induction ds with
  | nil => intro rest acc; rfl
  | cons c t ih =>
    intro rest acc
    have hc := h c (by simp)
    simp only [List.cons_append, parseDigitsAux, if_pos hc, List.foldl_cons]
    exact ih (fun d hd => h d (by simp [hd])) rest _

/-- Parsing a JSON int: at least one leading digit, munched greedily. -/
def parseNat (l : List Nat) : Option (Nat × List Nat) :=
  match l with
  | c :: _ => if 48 ≤ c ∧ c ≤ 57 then some (parseDigitsAux l 0) else none
  | [] => none

/-- The list does not begin with a decimal digit. -/
def headNonDigit (l : List Nat) : Prop :=
  match l with
  | [] => True
  | c :: _ => ¬ (48 ≤ c ∧ c ≤ 57)

theorem parseDigitsAux_stop (rest : List Nat) (acc : Nat)
    (h : headNonDigit rest) : parseDigitsAux rest acc = (acc, rest) := by
  match rest with
  | [] => rfl
  | c :: t =>
    simp only [headNonDigit] at h
    simp only [parseDigitsAux, if_neg h]

theorem parseNat_natDecimal (n : Nat) (rest : List Nat)
    (hrest : headNonDigit rest) :
    parseNat (natDecimal n ++ rest) = some (n, rest) := by
  match hnd : natDecimal n with
  | [] => exact absurd hnd (natDecimal_ne_nil n)
  | d :: ds =>
    have hdig : ∀ x ∈ natDecimal n, 48 ≤ x ∧ x ≤ 57 := natDecimal_digits n
    have hd : 48 ≤ d ∧ d ≤ 57 := hdig d (by rw [hnd]; simp)
    have happ := parseDigitsAux_append (natDecimal n) hdig rest 0
    rw [natDecimal_val n] at happ
    rw [hnd] at happ
    rw [List.cons_append] at happ
    simp only [List.cons_append, parseNat, if_pos hd]
    rw [happ, parseDigitsAux_stop rest n hrest]

/-- Characters that `json.dumps` emits verbatim inside a string literal:
printable ASCII except the quote and the backslash. -/
def jsonPlainChar (c : Nat) : Bool :=
  32 ≤ c && c < 127 && c != 34 && c != 92

/-- A string `json.dumps` serializes with no escape sequences. -/
def jsonPlain (s : PyStr) : Bool := s.all jsonPlainChar

theorem jsonPlain_ne_quote {s : PyStr} (h : jsonPlain s = true) :
    ∀ c ∈ s, c ≠ 34 := by
  intro c hc
  have := List.all_eq_true.mp h c hc
  simp only [jsonPlainChar, Bool.and_eq_true, bne_iff_ne, ne_eq,
    decide_eq_true_eq] at this
  exact this.1.2

theorem jsonPlain_lt {s : PyStr} (h : jsonPlain s = true) :
    ∀ c ∈ s, c < 256 := by
  intro c hc
  have := List.all_eq_true.mp h c hc
  simp only [jsonPlainChar, Bool.and_eq_true, bne_iff_ne, ne_eq,
    decide_eq_true_eq] at this
  omega

/-- A JSON string literal with no escapes needed. -/
def jsonStr (s : PyStr) : List Nat := 34 :: (s ++ [34])

/-- The payload dict built by `_generate_token` in `api/utils/admin_auth.py`:
`{"email": ..., "exp": ..., "nonce": ..., "purpose": ...}`. -/
structure TokenPayload where
  email : PyStr
  exp : Nat
  nonce : PyStr
  purpose : PyStr
deriving DecidableEq

/-- `json.dumps(payload, separators=(",", ":")).encode("utf-8")` for the
token payload, assuming the three string fields need no escapes (insertion
order of the dict is preserved by `json.dumps`). -/
def tokenJsonDumps (p : TokenPayload) : List Nat :=
  [123] ++ jsonStr [101, 109, 97, 105, 108] ++ [58] ++ jsonStr p.email ++ [44]
    ++ jsonStr [101, 120, 112] ++ [58] ++ natDecimal p.exp ++ [44]
    ++ jsonStr [110, 111, 110, 99, 101] ++ [58] ++ jsonStr p.nonce ++ [44]
    ++ jsonStr [112, 117, 114, 112, 111, 115, 101] ++ [58] ++ jsonStr p.purpose
    ++ [125]

/-- Consume an exact literal from the front of the input. -/
def expectLit (pre l : List Nat) : Option (List Nat) :=
  if l.take pre.length = pre then some (l.drop pre.length) else none

theorem expectLit_nil (l : List Nat) : expectLit [] l = some l := rfl

theorem expectLit_cons (c : Nat) (pre l : List Nat) :
    expectLit (c :: pre) (c :: l) = expectLit pre l := by
  simp [expectLit]

/-- `json.loads` restricted to documents of exactly the token-payload shape
(the only shape `_verify_token` accepts a signed body for). -/
def tokenJsonParse (l : List Nat) : Option TokenPayload := do
  let r1 ← expectLit [123, 34, 101, 109, 97, 105, 108, 34, 58, 34] l
  let (email, r2) ← scanUntil 34 r1
  let r3 ← expectLit [44, 34, 101, 120, 112, 34, 58] r2
  let (exp, r4) ← parseNat r3
  let r5 ← expectLit [44, 34, 110, 111, 110, 99, 101, 34, 58, 34] r4
  let (nonce, r6) ← scanUntil 34 r5
  let r7 ← expectLit [44, 34, 112, 117, 114, 112, 111, 115, 101, 34, 58, 34] r6
  let (purpose, r8) ← scanUntil 34 r7
  if r8 = [125] then some ⟨email, exp, nonce, purpose⟩ else none

theorem tokenJsonParse_dumps (p : TokenPayload)
    (he : jsonPlain p.email = true) (hn : jsonPlain p.nonce = true)
    (hp : jsonPlain p.purpose = true) :
    tokenJsonParse (tokenJsonDumps p) = some p := by
  obtain ⟨em, ex, no, pu⟩ := p
  simp only at he hn hp
  unfold tokenJsonDumps tokenJsonParse jsonStr
  simp only [List.append_assoc, List.cons_append, List.nil_append,
    List.singleton_append]
  simp only [expectLit_cons, expectLit_nil, Option.bind_eq_bind, Option.some_bind]
  rw [scanUntil_append 34 em _ (jsonPlain_ne_quote he)]
  simp only [Option.bind_eq_bind, Option.some_bind]
  simp only [expectLit_cons, expectLit_nil, Option.bind_eq_bind, Option.some_bind]
  rw [parseNat_natDecimal ex _ (by simp [headNonDigit])]
  simp only [Option.bind_eq_bind, Option.some_bind]
  simp only [expectLit_cons, expectLit_nil, Option.bind_eq_bind, Option.some_bind]
  rw [scanUntil_append 34 no _ (jsonPlain_ne_quote hn)]
  simp only [Option.bind_eq_bind, Option.some_bind]
  simp only [expectLit_cons, expectLit_nil, Option.bind_eq_bind, Option.some_bind]
  rw [scanUntil_append 34 pu _ (jsonPlain_ne_quote hp)]
  simp only [Option.bind_eq_bind, Option.some_bind]
  rfl

theorem jsonPlain_all_lt {s : PyStr} (h : jsonPlain s = true) :
    (s.all fun b => decide (b < 256)) = true := by
  apply List.all_eq_true.mpr
  intro c hc
  simpa using jsonPlain_lt h c hc

theorem natDecimal_all_lt (n : Nat) :
    ((natDecimal n).all fun b => decide (b < 256)) = true := by
  apply List.all_eq_true.mpr
  intro c hc
  have := natDecimal_digits n c hc
  simpa using by omega

theorem tokenJsonDumps_bytes (p : TokenPayload)
    (he : jsonPlain p.email = true) (hn : jsonPlain p.nonce = true)
    (hp : jsonPlain p.purpose = true) :
    ∀ b ∈ tokenJsonDumps p, b < 256 := by
  have hall : ((tokenJsonDumps p).all fun b => decide (b < 256)) = true := by
    unfold tokenJsonDumps jsonStr
    simp only [List.all_append, List.all_cons, List.all_nil,
      jsonPlain_all_lt he, jsonPlain_all_lt hn, jsonPlain_all_lt hp,
      natDecimal_all_lt]
    simp
  intro b hb
  simpa using List.all_eq_true.mp hall b hb

/-- The byte string signed by `_sign` in `api/utils/admin_auth.py`:
`f"{body}|{purpose}|{password_hash or ''}".encode("utf-8")`. -/
def signedMessage (body purpose : List Nat) (password_hash : Option PyStr) : List Nat :=
  body ++ [124] ++ purpose ++ [124] ++ password_hash.getD []

/-- `_sign`: the HMAC-SHA256 digest (abstract function `hmacFn` over key and
message) of the signed message, URL-safe base64 encoded with padding
stripped. -/
def adminSign (hmacFn : List Nat → List Nat → List Nat) (secret : List Nat)
    (body : List Nat) (password_hash : Option PyStr) (purpose : List Nat) :
    List Nat :=
  b64urlEncode (hmacFn secret (signedMessage body purpose password_hash))

/-- `_generate_token`: serialize `{email, exp = now + ttl, nonce, purpose}`,
URL-safe base64 it as the body, and append `"." + signature`.  The nonce
(`secrets.token_urlsafe(12)`) and the clock reading are passed explicitly. -/
def generateToken (hmacFn : List Nat → List Nat → List Nat) (secret : List Nat)
    (email : PyStr) (password_hash : Option PyStr) (ttl : Nat)
    (purpose : PyStr) (now : Nat) (nonce : PyStr) : List Nat :=
  let body := b64urlEncode (tokenJsonDumps ⟨email, now + ttl, nonce, purpose⟩)
  body ++ [46] ++ adminSign hmacFn secret body password_hash purpose

/-- `_verify_token`: split at the first dot (`ValueError` → `none`), compare
the signature against a recomputation under the supplied hash and purpose,
then decode and parse the payload, check the purpose tag, and reject an
expired `exp` (`int(exp) < int(time.time())`). -/
def verifyToken (hmacFn : List Nat → List Nat → List Nat) (secret : List Nat)
    (token : List Nat) (password_hash : Option PyStr)
    (expectedPurpose : PyStr) (now : Nat) : Option TokenPayload :=
  match scanUntil 46 token with
  | none => none
  | some (body, signature) =>
    if signature = adminSign hmacFn secret body password_hash expectedPurpose then
      match b64urlDecode body with
      | none => none
      | some payloadBytes =>
        match tokenJsonParse payloadBytes with
        | none => none
        | some p =>
          if p.purpose = expectedPurpose then
            if p.exp < now then none else some p
          else none
    else none

theorem b64urlEncode_inj (d1 d2 : List Nat)
    (h1 : ∀ b ∈ d1, b < 256) (h2 : ∀ b ∈ d2, b < 256)
    (h : b64urlEncode d1 = b64urlEncode d2) : d1 = d2 := by
  have e1 := b64urlDecode_b64urlEncode d1 h1
  have e2 := b64urlDecode_b64urlEncode d2 h2
  rw [h, e2] at e1
  exact (Option.some.injEq _ _).mp e1.symm

/-- Claim C1: a token generated under password hash `h1` verifies to its
payload under `h1` (same purpose, unexpired), but verifies to `none` under
any different hash `h2`, assuming HMAC-SHA256 yields distinct digests for
the two distinct signed messages. -/
theorem C1_token_binds_password_hash
    (hmacFn : List Nat → List Nat → List Nat) (secret : List Nat)
    (email nonce purpose : PyStr) (h1 h2 : PyStr)
    (genNow ttl verifyNow : Nat)
    (he : jsonPlain email = true) (hn : jsonPlain nonce = true)
    (hp : jsonPlain purpose = true)
    (hne : h1 ≠ h2)
    (hsig : hmacFn secret (signedMessage
        (b64urlEncode (tokenJsonDumps ⟨email, genNow + ttl, nonce, purpose⟩))
        purpose (some h1)) ≠
      hmacFn secret (signedMessage
        (b64urlEncode (tokenJsonDumps ⟨email, genNow + ttl, nonce, purpose⟩))
        purpose (some h2)))
    (hd1 : ∀ b ∈ hmacFn secret (signedMessage
        (b64urlEncode (tokenJsonDumps ⟨email, genNow + ttl, nonce, purpose⟩))
        purpose (some h1)), b < 256)
    (hd2 : ∀ b ∈ hmacFn secret (signedMessage
        (b64urlEncode (tokenJsonDumps ⟨email, genNow + ttl, nonce, purpose⟩))
        purpose (some h2)), b < 256) :
    verifyToken hmacFn secret
      (generateToken hmacFn secret email (some h1) ttl purpose genNow nonce)
      (some h2) purpose verifyNow = none ∧
    (verifyNow ≤ genNow + ttl →
      verifyToken hmacFn secret
        (generateToken hmacFn secret email (some h1) ttl purpose genNow nonce)
        (some h1) purpose verifyNow =
        some ⟨email, genNow + ttl, nonce, purpose⟩) := by
  have hbytes := tokenJsonDumps_bytes ⟨email, genNow + ttl, nonce, purpose⟩ he hn hp
  set body := b64urlEncode (tokenJsonDumps ⟨email, genNow + ttl, nonce, purpose⟩)
    with hbody
  have hnd : ∀ c ∈ body, c ≠ 46 := b64urlEncode_ne_dot _ hbytes
  have hsplit : ∀ sig : List Nat,
      scanUntil 46 (body ++ [46] ++ sig) = some (body, sig) := by
    intro sig
    have := scanUntil_append 46 body sig hnd
    simpa [List.append_assoc] using this
  constructor
  · have hgen : generateToken hmacFn secret email (some h1) ttl purpose genNow nonce
        = body ++ [46] ++ adminSign hmacFn secret body (some h1) purpose := rfl
    rw [hgen]
    unfold verifyToken
    rw [hsplit (adminSign hmacFn secret body (some h1) purpose)]
    have hneq : adminSign hmacFn secret body (some h1) purpose ≠
        adminSign hmacFn secret body (some h2) purpose := by
      intro heq
      exact hsig (b64urlEncode_inj _ _ hd1 hd2 heq)
    simp [hneq]
  · intro hexp
    have hgen : generateToken hmacFn secret email (some h1) ttl purpose genNow nonce
        = body ++ [46] ++ adminSign hmacFn secret body (some h1) purpose := rfl
    rw [hgen]
    unfold verifyToken
    rw [hsplit (adminSign hmacFn secret body (some h1) purpose)]
    have hdec : b64urlDecode body =
        some (tokenJsonDumps ⟨email, genNow + ttl, nonce, purpose⟩) :=
      b64urlDecode_b64urlEncode _ hbytes
    have hparse := tokenJsonParse_dumps ⟨email, genNow + ttl, nonce, purpose⟩ he hn hp
    simp [hdec, hparse]
    omega

/-- Witness for C1: concrete admin email `"a"`, hashes `"x"` and `"yy"`,
purpose `"s"`, a toy injective-enough HMAC, generation at time 1000 with a
100-second TTL, verification at time 1050. -/
theorem C1_token_binds_password_hash_witness :
    verifyToken (fun _ m => [m.length % 256]) [107]
      (generateToken (fun _ m => [m.length % 256]) [107] [97] (some [120])
        100 [115] 1000 [110])
      (some [121, 121]) [115] 1050 = none ∧
    (1050 ≤ 1000 + 100 →
      verifyToken (fun _ m => [m.length % 256]) [107]
        (generateToken (fun _ m => [m.length % 256]) [107] [97] (some [120])
          100 [115] 1000 [110])
        (some [120]) [115] 1050 = some ⟨[97], 1000 + 100, [110], [115]⟩) :=
  C1_token_binds_password_hash (fun _ m => [m.length % 256]) [107]
    [97] [110] [115] [120] [121, 121] 1000 100 1050
    (by decide) (by decide) (by decide) (by decide)
    (by decide) (by decide) (by decide)

/-- The JSON object carried by an encrypted auth payload
(`api/utils/crypto_utils.py`, `decrypt_auth_payload` docstring):
`{email, password, first_name, last_name}`. -/
structure AuthPayload where
  email : PyStr
  password : PyStr
  first_name : PyStr
  last_name : PyStr
deriving DecidableEq

/-- `json.dumps` of the auth payload (insertion order, no escapes). -/
def authJsonDumps (d : AuthPayload) : List Nat :=
  [123] ++ jsonStr [101, 109, 97, 105, 108] ++ [58] ++ jsonStr d.email ++ [44]
    ++ jsonStr [112, 97, 115, 115, 119, 111, 114, 100] ++ [58]
    ++ jsonStr d.password ++ [44]
    ++ jsonStr [102, 105, 114, 115, 116, 95, 110, 97, 109, 101] ++ [58]
    ++ jsonStr d.first_name ++ [44]
    ++ jsonStr [108, 97, 115, 116, 95, 110, 97, 109, 101] ++ [58]
    ++ jsonStr d.last_name ++ [125]

/-- `json.loads` restricted to documents of exactly the auth-payload shape;
any other plaintext (non-JSON or a non-object document) yields `none`, as
the code returns `None` for both. -/
def authJsonParse (l : List Nat) : Option AuthPayload := do
  let r1 ← expectLit [123, 34, 101, 109, 97, 105, 108, 34, 58, 34] l
  let (email, r2) ← scanUntil 34 r1
  let r3 ← expectLit
    [44, 34, 112, 97, 115, 115, 119, 111, 114, 100, 34, 58, 34] r2
  let (password, r4) ← scanUntil 34 r3
  let r5 ← expectLit
    [44, 34, 102, 105, 114, 115, 116, 95, 110, 97, 109, 101, 34, 58, 34] r4
  let (first_name, r6) ← scanUntil 34 r5
  let r7 ← expectLit
    [44, 34, 108, 97, 115, 116, 95, 110, 97, 109, 101, 34, 58, 34] r6
  let (last_name, r8) ← scanUntil 34 r7
  if r8 = [125] then some ⟨email, password, first_name, last_name⟩ else none

theorem authJsonParse_dumps (d : AuthPayload)
    (he : jsonPlain d.email = true) (hpw : jsonPlain d.password = true)
    (hf : jsonPlain d.first_name = true) (hl : jsonPlain d.last_name = true) :
    authJsonParse (authJsonDumps d) = some d := by
  obtain ⟨em, pw, fn, ln⟩ := d
  simp only at he hpw hf hl
  unfold authJsonDumps authJsonParse jsonStr
  simp only [List.append_assoc, List.cons_append, List.nil_append,
    List.singleton_append]
  simp only [expectLit_cons, expectLit_nil, Option.bind_eq_bind, Option.some_bind]
  rw [scanUntil_append 34 em _ (jsonPlain_ne_quote he)]
  simp only [Option.bind_eq_bind, Option.some_bind]
  simp only [expectLit_cons, expectLit_nil, Option.bind_eq_bind, Option.some_bind]
  rw [scanUntil_append 34 pw _ (jsonPlain_ne_quote hpw)]
  simp only [Option.bind_eq_bind, Option.some_bind]
  simp only [expectLit_cons, expectLit_nil, Option.bind_eq_bind, Option.some_bind]
  rw [scanUntil_append 34 fn _ (jsonPlain_ne_quote hf)]
  simp only [Option.bind_eq_bind, Option.some_bind]
  simp only [expectLit_cons, expectLit_nil, Option.bind_eq_bind, Option.some_bind]
  rw [scanUntil_append 34 ln _ (jsonPlain_ne_quote hl)]
  simp only [Option.bind_eq_bind, Option.some_bind]
  rfl

/-- `decrypt_auth_payload` from `api/utils/crypto_utils.py`.  The RSA private
key and the RSA-OAEP decryption primitive are abstract parameters; every
exception point of the Python body (`b64decode`, `priv.decrypt`, UTF-8
decoding and `json.loads`) is caught by the surrounding `try`/`except` and
becomes `none`, as does a falsy input or a missing key. -/
def decrypt_auth_payload {Key : Type} (priv : Option Key)
    (rsaDecrypt : Key → List Nat → Option (List Nat))
    (enc_b64 : List Nat) : Option AuthPayload :=
  if enc_b64 = [] then none
  else
    match priv with
    | none => none
    | some key =>
      match b64stdDecode enc_b64 with
      | none => none
      | some ciphertext =>
        match rsaDecrypt key ciphertext with
        | none => none
        | some plaintext => authJsonParse plaintext

/-- Claim C5: `decrypt_auth_payload` recovers the original
`{email, password, first_name, last_name}` object when the ciphertext
decrypts to its JSON serialization under the held key, and returns `none`
(without raising) on an empty input, a missing key, invalid base64, a
ciphertext the key does not decrypt (wrong public key), and a plaintext
that is not a JSON object of that shape. -/
theorem C5_decrypt_auth_payload_total {Key : Type} (k : Key)
    (rsaDecrypt : Key → List Nat → Option (List Nat))
    (encAny encBad : List Nat) (ct1 ctBad ct2 : List Nat)
    (badPt : List Nat) (d : AuthPayload)
    (hEncBad : b64stdDecode encBad = none)
    (hct1 : rsaDecrypt k ct1 = none) (h1ne : ct1 ≠ [])
    (h1b : ∀ b ∈ ct1, b < 256)
    (hctBad : rsaDecrypt k ctBad = some badPt)
    (hbadParse : authJsonParse badPt = none) (hbne : ctBad ≠ [])
    (hbb : ∀ b ∈ ctBad, b < 256)
    (hct2 : rsaDecrypt k ct2 = some (authJsonDumps d)) (h2ne : ct2 ≠ [])
    (h2b : ∀ b ∈ ct2, b < 256)
    (hde : jsonPlain d.email = true) (hdp : jsonPlain d.password = true)
    (hdf : jsonPlain d.first_name = true) (hdl : jsonPlain d.last_name = true) :
    decrypt_auth_payload (some k) rsaDecrypt [] = none ∧
    decrypt_auth_payload (none : Option Key) rsaDecrypt encAny = none ∧
    decrypt_auth_payload (some k) rsaDecrypt encBad = none ∧
    decrypt_auth_payload (some k) rsaDecrypt (b64stdEncode ct1) = none ∧
    decrypt_auth_payload (some k) rsaDecrypt (b64stdEncode ctBad) = none ∧
    decrypt_auth_payload (some k) rsaDecrypt (b64stdEncode ct2) = some d := by
  refine ⟨rfl, ?_, ?_, ?_, ?_, ?_⟩
  · by_cases h : encAny = [] <;> simp [decrypt_auth_payload, h]
  · by_cases h : encBad = [] <;> simp [decrypt_auth_payload, h, hEncBad]
  · have hne : b64stdEncode ct1 ≠ [] := b64Encode_ne_nil b64AlphaStd ct1 h1ne
    simp [decrypt_auth_payload, hne, b64stdDecode_b64stdEncode ct1 h1b, hct1]
  · have hne : b64stdEncode ctBad ≠ [] := b64Encode_ne_nil b64AlphaStd ctBad hbne
    simp [decrypt_auth_payload, hne, b64stdDecode_b64stdEncode ctBad hbb,
      hctBad, hbadParse]
  · have hne : b64stdEncode ct2 ≠ [] := b64Encode_ne_nil b64AlphaStd ct2 h2ne
    simp [decrypt_auth_payload, hne, b64stdDecode_b64stdEncode ct2 h2b, hct2,
      authJsonParse_dumps d hde hdp hdf hdl]

/-- Witness for C5: a unit key, an RSA primitive that decrypts only the
ciphertext `[7]` (to the serialization of a concrete payload) and `[9]`
(to a non-object plaintext), exercised on all six branches. -/
theorem C5_decrypt_auth_payload_total_witness :
    decrypt_auth_payload (some ()) (fun _ ct =>
      if ct = [7] then some (authJsonDumps ⟨[97], [98], [99], [100]⟩)
      else if ct = [9] then some [110, 111] else none) [] = none ∧
    decrypt_auth_payload (none : Option Unit) (fun _ ct =>
      if ct = [7] then some (authJsonDumps ⟨[97], [98], [99], [100]⟩)
      else if ct = [9] then some [110, 111] else none) [65] = none ∧
    decrypt_auth_payload (some ()) (fun _ ct =>
      if ct = [7] then some (authJsonDumps ⟨[97], [98], [99], [100]⟩)
      else if ct = [9] then some [110, 111] else none) [46, 46] = none ∧
    decrypt_auth_payload (some ()) (fun _ ct =>
      if ct = [7] then some (authJsonDumps ⟨[97], [98], [99], [100]⟩)
      else if ct = [9] then some [110, 111] else none) (b64stdEncode [8]) = none ∧
    decrypt_auth_payload (some ()) (fun _ ct =>
      if ct = [7] then some (authJsonDumps ⟨[97], [98], [99], [100]⟩)
      else if ct = [9] then some [110, 111] else none) (b64stdEncode [9]) = none ∧
    decrypt_auth_payload (some ()) (fun _ ct =>
      if ct = [7] then some (authJsonDumps ⟨[97], [98], [99], [100]⟩)
      else if ct = [9] then some [110, 111] else none) (b64stdEncode [7])
      = some ⟨[97], [98], [99], [100]⟩ :=
  C5_decrypt_auth_payload_total () (fun _ ct =>
      if ct = [7] then some (authJsonDumps ⟨[97], [98], [99], [100]⟩)
      else if ct = [9] then some [110, 111] else none)
    [65] [46, 46] [8] [9] [7] [110, 111] ⟨[97], [98], [99], [100]⟩
    (by decide) (by decide) (by decide) (by decide) (by decide) (by decide)
    (by decide) (by decide) (by decide) (by decide) (by decide) (by decide)
    (by decide) (by decide) (by decide)

/-- The `{enc_profile, iv}` pair returned by `aesgcm_encrypt_profile`
(`alg` is the constant string `"AES-GCM"` and is not modelled). -/
structure EncBlock where
  enc_profile : List Nat
  iv : List Nat
deriving DecidableEq

/-- `aesgcm_encrypt_profile` from `api/utils/crypto_utils.py`.  The AES-GCM
primitive, the JSON serialization of the profile dict, the library
availability flag (`AESGCM is None`) and the `os.urandom(12)` output are
explicit parameters; every failure (falsy key, missing library, bad base64,
wrong key length) returns `none` via the surrounding `try`/`except`. -/
def aesgcm_encrypt_profile {Profile : Type} (aesAvailable : Bool)
    (aesEnc : List Nat → List Nat → List Nat → List Nat)
    (dumpsFn : Profile → List Nat) (randomIV : List Nat)
    (return_key_b64 : Option (List Nat)) (profile : Profile) :
    Option EncBlock :=
  if return_key_b64.getD [] = [] ∨ aesAvailable = false then none
  else
    match b64stdDecode (return_key_b64.getD []) with
    | none => none
    | some key =>
      if key.length = 16 ∨ key.length = 24 ∨ key.length = 32 then
        some ⟨b64stdEncode (aesEnc key randomIV (dumpsFn profile)),
              b64stdEncode randomIV⟩
      else none

/-- Claim C7: for a base64 key of 16, 24 or 32 bytes the returned block
carries a 12-byte nonce, and AES-GCM decryption of the base64-decoded
ciphertext with the decoded nonce and the original key reproduces exactly
the JSON serialization of the profile; a missing key, a key of any other
length, or an unavailable AES library yields `none`. -/
theorem C7_aesgcm_profile_roundtrip {Profile : Type}
    (aesEnc aesDec : List Nat → List Nat → List Nat → List Nat)
    (dumpsFn : Profile → List Nat) (profile : Profile)
    (key key2 iv : List Nat)
    (hkey : key.length = 16 ∨ key.length = 24 ∨ key.length = 32)
    (hkb : ∀ b ∈ key, b < 256)
    (hiv : iv.length = 12) (hivb : ∀ b ∈ iv, b < 256)
    (hct : ∀ b ∈ aesEnc key iv (dumpsFn profile), b < 256)
    (hrt : aesDec key iv (aesEnc key iv (dumpsFn profile)) = dumpsFn profile)
    (hk2 : ¬ (key2.length = 16 ∨ key2.length = 24 ∨ key2.length = 32))
    (hk2ne : key2 ≠ []) (hk2b : ∀ b ∈ key2, b < 256) :
    (∃ blk, aesgcm_encrypt_profile true aesEnc dumpsFn iv
        (some (b64stdEncode key)) profile = some blk ∧
      b64stdDecode blk.iv = some iv ∧ iv.length = 12 ∧
      b64stdDecode blk.enc_profile = some (aesEnc key iv (dumpsFn profile)) ∧
      aesDec key iv (aesEnc key iv (dumpsFn profile)) = dumpsFn profile) ∧
    aesgcm_encrypt_profile true aesEnc dumpsFn iv none profile = none ∧
    aesgcm_encrypt_profile true aesEnc dumpsFn iv (some []) profile = none ∧
    aesgcm_encrypt_profile false aesEnc dumpsFn iv
      (some (b64stdEncode key)) profile = none ∧
    aesgcm_encrypt_profile true aesEnc dumpsFn iv
      (some (b64stdEncode key2)) profile = none := by
  have hkne : key ≠ [] := by
    intro h
    rw [h] at hkey
    simp at hkey
  have hencne : b64stdEncode key ≠ [] := b64Encode_ne_nil b64AlphaStd key hkne
  have henc2ne : b64stdEncode key2 ≠ [] := b64Encode_ne_nil b64AlphaStd key2 hk2ne
  refine ⟨?_, rfl, rfl, ?_, ?_⟩
  · refine ⟨⟨b64stdEncode (aesEnc key iv (dumpsFn profile)), b64stdEncode iv⟩,
      ?_, ?_, hiv, ?_, hrt⟩
    · simp [aesgcm_encrypt_profile, hencne, b64stdDecode_b64stdEncode key hkb,
        hkey]
    · exact b64stdDecode_b64stdEncode iv hivb
    · exact b64stdDecode_b64stdEncode _ hct
  · simp [aesgcm_encrypt_profile, hencne]
  · simp [aesgcm_encrypt_profile, henc2ne,
      b64stdDecode_b64stdEncode key2 hk2b, hk2]

/-- Witness for C7: a 16-byte key, a 12-byte nonce, byte-rotation standing in
for AES-GCM, a two-byte serialized profile, and the wrong-length key
`[1, 2, 3]`. -/
theorem C7_aesgcm_profile_roundtrip_witness :
    (∃ blk, aesgcm_encrypt_profile true
        (fun _ _ p => p.map (fun b => (b + 1) % 256)) (fun _ : Unit => [104, 105])
        [0, 1, 2, 3, 4, 5, 6, 7, 8, 9, 10, 11]
        (some (b64stdEncode [0, 1, 2, 3, 4, 5, 6, 7, 8, 9, 10, 11, 12, 13, 14, 15]))
        () = some blk ∧
      b64stdDecode blk.iv = some [0, 1, 2, 3, 4, 5, 6, 7, 8, 9, 10, 11] ∧
      ([0, 1, 2, 3, 4, 5, 6, 7, 8, 9, 10, 11] : List Nat).length = 12 ∧
      b64stdDecode blk.enc_profile =
        some (([104, 105] : List Nat).map (fun b => (b + 1) % 256)) ∧
      (([104, 105] : List Nat).map (fun b => (b + 1) % 256)).map
        (fun b => (b + 255) % 256) = [104, 105]) ∧
    aesgcm_encrypt_profile true (fun _ _ p => p.map (fun b => (b + 1) % 256))
      (fun _ : Unit => [104, 105]) [0, 1, 2, 3, 4, 5, 6, 7, 8, 9, 10, 11]
      none () = none ∧
    aesgcm_encrypt_profile true (fun _ _ p => p.map (fun b => (b + 1) % 256))
      (fun _ : Unit => [104, 105]) [0, 1, 2, 3, 4, 5, 6, 7, 8, 9, 10, 11]
      (some []) () = none ∧
    aesgcm_encrypt_profile false (fun _ _ p => p.map (fun b => (b + 1) % 256))
      (fun _ : Unit => [104, 105]) [0, 1, 2, 3, 4, 5, 6, 7, 8, 9, 10, 11]
      (some (b64stdEncode [0, 1, 2, 3, 4, 5, 6, 7, 8, 9, 10, 11, 12, 13, 14, 15]))
      () = none ∧
    aesgcm_encrypt_profile true (fun _ _ p => p.map (fun b => (b + 1) % 256))
      (fun _ : Unit => [104, 105]) [0, 1, 2, 3, 4, 5, 6, 7, 8, 9, 10, 11]
      (some (b64stdEncode [1, 2, 3])) () = none :=
  C7_aesgcm_profile_roundtrip (fun _ _ p => p.map (fun b => (b + 1) % 256))
    (fun _ _ c => c.map (fun b => (b + 255) % 256)) (fun _ : Unit => [104, 105])
    () [0, 1, 2, 3, 4, 5, 6, 7, 8, 9, 10, 11, 12, 13, 14, 15] [1, 2, 3]
    [0, 1, 2, 3, 4, 5, 6, 7, 8, 9, 10, 11]
    (by decide) (by decide) (by decide) (by decide) (by decide) (by decide)
    (by decide) (by decide) (by decide)

/-- First JSON document returned by the GoTrue admin REST endpoint in
`admin_get_user_by_email_rest` (`api/utils/core_supabase.py`): a JSON array
of user objects (each user's optional `email` field), a JSON object whose
`users`/`data` member is an array (`some us`) or a non-list truthy value
(`none`) alongside the object's own optional `email`, or a raised fetch
error. -/
inductive AdminResp
  | jlist (users : List (Option PyStr))
  | jdict (arr : Option (List (Option PyStr))) (emailField : Option PyStr)
  | fetchErr

/-- Fallback page listing in `admin_get_user_by_email_rest`: the extracted
items, or a raised fetch error (which yields `False`). -/
inductive AdminFallback
  | items (users : List (Option PyStr))
  | fetchErr

/-- `(u.get("email") or "").lower() == email.lower()`. -/
def emailMatches (email : PyStr) (u : Option PyStr) : Bool :=
  pyLowerStr (u.getD []) = pyLowerStr email

/-- `any(... for u in users)`. -/
def anyEmailMatch (us : List (Option PyStr)) (email : PyStr) : Bool :=
  us.any (emailMatches email)

/-- `admin_get_user_by_email_rest`: `False` without a service key; otherwise
the first response decides via the array/object/email branches, and on a
fetch error or an undecided object the fallback listing decides (its own
fetch error yielding `False`). -/
def admin_get_user_by_email_rest (service_key : PyStr) (resp : AdminResp)
    (fallback : AdminFallback) (email : PyStr) : Bool :=
  if service_key = [] then false
  else
    let viaFirst : Option Bool :=
      match resp with
      | .jlist us => some (anyEmailMatch us email)
      | .jdict (some us) _ => some (anyEmailMatch us email)
      | .jdict none (some ev) =>
        if ev = [] then none
        else some (pyLowerStr ev = pyLowerStr email : Bool)
      | .jdict none none => none
      | .fetchErr => none
    match viaFirst with
    | some b => b
    | none =>
      match fallback with
      | .items us => anyEmailMatch us email
      | .fetchErr => false

/-- Detail strings of `/auth` responses, kept symbolic.  `wrapped code d`
models `str(HTTPException(code, d))`, the `f"{status_code}: {detail}"`
rendering an `HTTPException` receives when it is caught by the handler's
final `except Exception` clause. -/
inductive ErrDetail
  | invalidEncPayload
  | invalidMode
  | buildErr (msg : PyStr)
  | emailRegistered
  | missingNames
  | excMsg (msg : PyStr)
  | wrapped (code : Nat) (d : ErrDetail)
deriving DecidableEq

/-- Outcome of one `/auth` request (the successful response body is
abstracted to `success`). -/
inductive AuthOutcome
  | success
  | httpError (code : Nat) (detail : ErrDetail)
deriving DecidableEq

/-- Handler result plus which provider calls were issued. -/
structure AuthRes where
  outcome : AuthOutcome
  signInCalled : Bool
  signUpCalled : Bool
deriving DecidableEq

/-- Result of a Python call that may raise: `ok` or an exception message. -/
inductive PyResult (α : Type)
  | ok (val : α)
  | exc (msg : PyStr)

/-- The `AuthData` request model (`api/models.py`). -/
structure AuthData where
  mode : PyStr
  email : Option PyStr
  password : Option PyStr
  first_name : Option PyStr
  last_name : Option PyStr
  enc : Option PyStr

/-- Python truthiness of an optional string: `None` and `""` are falsy. -/
def pyTruthy (o : Option PyStr) : Bool := decide (o.getD [] ≠ [])

/-- `(decrypted or {}).get(field)` flattened to `""` when absent, which the
`or` chains treat identically to `None`. -/
def optStr (o : Option AuthPayload) (f : AuthPayload → PyStr) : PyStr :=
  match o with
  | some d => f d
  | none => []

/-- `"login"`. -/
def loginLit : PyStr := [108, 111, 103, 105, 110]

/-- `"signup"`. -/
def signupLit : PyStr := [115, 105, 103, 110, 117, 112]

/-- Field resolution in the `auth` handler (`api/routes/user.py` lines
91-98): prefer the decrypted payload, fall back to the plaintext body
fields; the email is normalized.  (The decrypted `rtk` return key is only
used by the abstracted login response and is not modelled.) -/
def resolveAuthFields (decryptFn : PyStr → Option AuthPayload)
    (data : AuthData) : PyStr × PyStr × PyStr × PyStr :=
  let decrypted := if pyTruthy data.enc then decryptFn (data.enc.getD []) else none
  (normalize_email (pyOr (optStr decrypted AuthPayload.email)
      (pyOr (data.email.getD []) [])),
   pyOr (optStr decrypted AuthPayload.password) (pyOr (data.password.getD []) []),
   pyOr (optStr decrypted AuthPayload.first_name) (data.first_name.getD []),
   pyOr (optStr decrypted AuthPayload.last_name) (data.last_name.getD []))

/-- The `auth` handler of `api/routes/user.py` (also `api/index.py`):
enc-payload check (400), mode validation (400), client build (500 on
failure), then the provider calls inside `try`; a provider exception —
and any `HTTPException` raised inside the `try`, whose string form is
`wrapped` — is re-raised by the final `except Exception` clause as
status 409 carrying the exception text.  The login response construction
is abstracted to `success`; its inner `try`/`except` blocks cannot raise
out. -/
def authHandler (decryptFn : PyStr → Option AuthPayload)
    (build : PyResult PyStr) (adminResp : AdminResp) (adminFb : AdminFallback)
    (signIn signUp : PyResult Unit) (data : AuthData) : AuthRes :=
  let mode := pyLowerStr (pyStrip data.mode)
  let decrypted := if pyTruthy data.enc then decryptFn (data.enc.getD []) else none
  if pyTruthy data.enc && decrypted.isNone then
    ⟨.httpError 400 .invalidEncPayload, false, false⟩
  else
    let fields := resolveAuthFields decryptFn data
    if mode ≠ loginLit ∧ mode ≠ signupLit then
      ⟨.httpError 400 .invalidMode, false, false⟩
    else
      match build with
      | .exc msg => ⟨.httpError 500 (.buildErr msg), false, false⟩
      | .ok service_key =>
        if mode = loginLit then
          match signIn with
          | .exc msg => ⟨.httpError 409 (.excMsg msg), true, false⟩
          | .ok _ => ⟨.success, true, false⟩
        else
          if service_key ≠ [] ∧
              admin_get_user_by_email_rest service_key adminResp adminFb
                fields.1 = true then
            ⟨.httpError 409 (.wrapped 409 .emailRegistered), false, false⟩
          else if pyStrip fields.2.2.1 = [] ∨ pyStrip fields.2.2.2 = [] then
            ⟨.httpError 409 (.wrapped 400 .missingNames), false, false⟩
          else
            match signUp with
            | .exc msg => ⟨.httpError 409 (.excMsg msg), false, true⟩
            | .ok _ => ⟨.success, false, true⟩

theorem pyOr_nil_left (b : PyStr) : pyOr [] b = b := rfl

/-- Claim C6: a present non-empty `enc` that fails to decrypt yields 400
before any provider call (neither sign-in nor sign-up is issued and the
client build result is irrelevant); with `enc` absent the handler resolves
the plaintext body fields. -/
theorem C6_auth_enc_payload_handling
    (decryptFn : PyStr → Option AuthPayload) (build : PyResult PyStr)
    (adminResp : AdminResp) (adminFb : AdminFallback)
    (signIn signUp : PyResult Unit) (data : AuthData) (e : PyStr)
    (henc : data.enc = some e) (hne : e ≠ []) (hdec : decryptFn e = none) :
    authHandler decryptFn build adminResp adminFb signIn signUp data =
      ⟨.httpError 400 .invalidEncPayload, false, false⟩ ∧
    (∀ data2 : AuthData, data2.enc = none →
      resolveAuthFields decryptFn data2 =
        (normalize_email (data2.email.getD []), data2.password.getD [],
         data2.first_name.getD [], data2.last_name.getD [])) := by
  constructor
  · have ht : pyTruthy (some e) = true := by simp [pyTruthy, hne]
    simp [authHandler, henc, ht, hdec]
  · intro data2 h2
    have ht : pyTruthy data2.enc = false := by simp [pyTruthy, h2]
    simp only [resolveAuthFields, ht, if_false, Bool.false_eq_true, optStr,
      pyOr_nil_left, pyOr_nil]

/-- Witness for C6: enc `"Z"` that fails decryption yields the 400 with no
provider call; a plaintext request resolves to its own fields. -/
theorem C6_auth_enc_payload_handling_witness :
    authHandler (fun _ => none) (.ok [107]) (.jlist []) (.items [])
      (.ok ()) (.ok ())
      ⟨loginLit, some [97], some [112], none, none, some [90]⟩ =
      ⟨.httpError 400 .invalidEncPayload, false, false⟩ ∧
    (∀ data2 : AuthData, data2.enc = none →
      resolveAuthFields (fun _ => none) data2 =
        (normalize_email (data2.email.getD []), data2.password.getD [],
         data2.first_name.getD [], data2.last_name.getD [])) :=
  C6_auth_enc_payload_handling (fun _ => none) (.ok [107]) (.jlist [])
    (.items []) (.ok ()) (.ok ())
    ⟨loginLit, some [97], some [112], none, none, some [90]⟩ [90]
    rfl (by decide) rfl

/-- Counterexample to claim C3 as stated: at a concrete login request whose
provider sign-in raises `"boom"`, the handler responds 409 — not 500 — and
the response detail carries the full exception message rather than a generic
one. -/
theorem C3_counterexample_error_detail_leak :
    (authHandler (fun _ => none) (.ok [107]) AdminResp.fetchErr
        AdminFallback.fetchErr (.exc [98, 111, 111, 109]) (.ok ())
        ⟨loginLit, some [97], some [112], none, none, none⟩).outcome =
      .httpError 409 (.excMsg [98, 111, 111, 109]) ∧
    (409 : Nat) ≠ 500 := by
  constructor
  · decide
  · decide

/-- Claim C3 (amended): an unexpected provider failure in either `/auth`
branch is caught by the final `except Exception` clause and returned as
HTTP 409 whose detail is the exception's own message (`str(e)`), not as a
500 with a generic body. -/
theorem C3_auth_provider_error_maps_to_409
    (decryptFn : PyStr → Option AuthPayload) (adminResp : AdminResp)
    (adminFb : AdminFallback) (k msg : PyStr) (data : AuthData)
    (henc : data.enc = none) :
    (pyLowerStr (pyStrip data.mode) = loginLit →
      ∀ signUp : PyResult Unit,
        authHandler decryptFn (.ok k) adminResp adminFb (.exc msg) signUp data =
          ⟨.httpError 409 (.excMsg msg), true, false⟩) ∧
    (pyLowerStr (pyStrip data.mode) = signupLit →
      ∀ signIn : PyResult Unit,
      ¬ (k ≠ [] ∧ admin_get_user_by_email_rest k adminResp adminFb
          (resolveAuthFields decryptFn data).1 = true) →
      pyStrip (resolveAuthFields decryptFn data).2.2.1 ≠ [] →
      pyStrip (resolveAuthFields decryptFn data).2.2.2 ≠ [] →
        authHandler decryptFn (.ok k) adminResp adminFb signIn (.exc msg) data =
          ⟨.httpError 409 (.excMsg msg), false, true⟩) := by
  have ht : pyTruthy data.enc = false := by simp [pyTruthy, henc]
  constructor
  · intro hmode signUp
    simp [authHandler, ht, hmode]
  · intro hmode signIn hdup hfn hln
    have hns : signupLit ≠ loginLit := by decide
    simp [authHandler, ht, hmode, hns, hdup, hfn, hln]

/-- Witness for C3: both branches at concrete requests whose provider call
raises `"boom"`. -/
theorem C3_auth_provider_error_maps_to_409_witness :
    (pyLowerStr (pyStrip loginLit) = loginLit →
      ∀ signUp : PyResult Unit,
        authHandler (fun _ => none) (.ok [107]) AdminResp.fetchErr
          AdminFallback.fetchErr (.exc [98, 111, 111, 109]) signUp
          ⟨loginLit, some [97], some [112], some [102], some [108], none⟩ =
          ⟨.httpError 409 (.excMsg [98, 111, 111, 109]), true, false⟩) ∧
    (pyLowerStr (pyStrip loginLit) = signupLit →
      ∀ signIn : PyResult Unit,
      ¬ (([107] : PyStr) ≠ [] ∧ admin_get_user_by_email_rest [107]
          AdminResp.fetchErr AdminFallback.fetchErr
          (resolveAuthFields (fun _ => none)
            ⟨loginLit, some [97], some [112], some [102], some [108], none⟩).1
          = true) →
      pyStrip (resolveAuthFields (fun _ => none)
        ⟨loginLit, some [97], some [112], some [102], some [108], none⟩).2.2.1 ≠ [] →
      pyStrip (resolveAuthFields (fun _ => none)
        ⟨loginLit, some [97], some [112], some [102], some [108], none⟩).2.2.2 ≠ [] →
        authHandler (fun _ => none) (.ok [107]) AdminResp.fetchErr
          AdminFallback.fetchErr signIn (.exc [98, 111, 111, 109])
          ⟨loginLit, some [97], some [112], some [102], some [108], none⟩ =
          ⟨.httpError 409 (.excMsg [98, 111, 111, 109]), false, true⟩) :=
  C3_auth_provider_error_maps_to_409 (fun _ => none) AdminResp.fetchErr
    AdminFallback.fetchErr [107] [98, 111, 111, 109]
    ⟨loginLit, some [97], some [112], some [102], some [108], none⟩ rfl

/-- Claim C8: a signup whose normalized email is already present in the
provider's user table under any letter casing yields HTTP 409 without
calling `sign_up`, and the admin REST existence check compares emails
case-insensitively. -/
theorem C8_signup_duplicate_email_conflict
    (decryptFn : PyStr → Option AuthPayload) (adminFb : AdminFallback)
    (us : List (Option PyStr)) (signIn signUp : PyResult Unit)
    (data : AuthData) (k : PyStr)
    (henc : data.enc = none) (hmode : data.mode = signupLit) (hk : k ≠ [])
    (hus : ∃ u ∈ us, pyLowerStr (u.getD []) =
      pyLowerStr ((resolveAuthFields decryptFn data).1)) :
    authHandler decryptFn (.ok k) (.jlist us) adminFb signIn signUp data =
      ⟨.httpError 409 (.wrapped 409 .emailRegistered), false, false⟩ ∧
    (∀ em : PyStr, admin_get_user_by_email_rest k (.jlist us) adminFb em = true ↔
      ∃ u ∈ us, pyLowerStr (u.getD []) = pyLowerStr em) := by
  have hiff : ∀ em : PyStr,
      admin_get_user_by_email_rest k (.jlist us) adminFb em = true ↔
        ∃ u ∈ us, pyLowerStr (u.getD []) = pyLowerStr em := by
    intro em
    simp [admin_get_user_by_email_rest, hk, anyEmailMatch, emailMatches,
      List.any_eq_true]
  refine ⟨?_, hiff⟩
  have ht : pyTruthy data.enc = false := by simp [pyTruthy, henc]
  have hmode2 : pyLowerStr (pyStrip data.mode) = signupLit := by
    rw [hmode]; decide
  have hns : signupLit ≠ loginLit := by decide
  have hget := (hiff ((resolveAuthFields decryptFn data).1)).mpr hus
  simp [authHandler, ht, hmode2, hns, hk, hget]

/-- Witness for C8: the table holds `"A"`, the signup request uses
`" a "`, which normalizes to `"a"` and matches case-insensitively. -/
theorem C8_signup_duplicate_email_conflict_witness :
    authHandler (fun _ => none) (.ok [107]) (.jlist [some [65]]) (.items [])
      (.ok ()) (.ok ())
      ⟨signupLit, some [32, 97, 32], some [112], some [102], some [108], none⟩ =
      ⟨.httpError 409 (.wrapped 409 .emailRegistered), false, false⟩ ∧
    (∀ em : PyStr, admin_get_user_by_email_rest [107] (.jlist [some [65]])
        (.items []) em = true ↔
      ∃ u ∈ [some [65]], pyLowerStr (u.getD ([] : PyStr)) = pyLowerStr em) :=
  C8_signup_duplicate_email_conflict (fun _ => none) (.items [])
    [some [65]] (.ok ()) (.ok ())
    ⟨signupLit, some [32, 97, 32], some [112], some [102], some [108], none⟩
    [107] rfl rfl (by decide) ⟨some [65], by decide, by decide⟩

end VercelSpec
